import Mathlib

/-!
Shallow embedding of the chunked-upload subsystem of `src/app.py`
(`upload_init`, `upload_chunk`, `upload_complete` and the state they share:
the upload-session registry `upload_sessions`, the chunk staging area under
`UPLOAD_CONFIG.chunk_dir`, the finished-file area under
`UPLOAD_CONFIG.upload_dir`, and the finished-file index `uploaded_files`).

Python dicts are modelled as association lists observed only through `find?`;
directories and files are modelled by the same association-list shape
(an entry in `St.chunk_dir` is an existing staging subdirectory, whose inner
association list maps a chunk index to the byte content of the chunk file
`chunk_{index:06d}.part`; the index ↔ file-name correspondence is faithful
because `chunkFileName` is injective, proved below).  Byte strings are
`List Nat`.  The 1 MiB buffered copy loops of the source (lines 224-230 and
259-267) copy a byte stream verbatim, so a chunk write stores the whole
content and reassembly concatenates whole contents.  The chat broadcast at
the end of `upload_complete` (lines 285-300) and the socket handlers are
outside the modelled subsystem.  `werkzeug.secure_filename` is an external
library function and is passed as an explicit argument `sf`.
-/

namespace FileHelper

/-- Lookup in an association list, first binding wins; this is the only
observation used on modelled dicts, so insertion order is irrelevant. -/
def find? {κ : Type} {α : Type} [DecidableEq κ] : List (κ × α) → κ → Option α
  | [], _ => none
  | (k, v) :: rest, key => if k = key then some v else find? rest key

/-- Remove every binding of a key (Python `dict.pop` / file deletion). -/
def eraseKey {κ : Type} {α : Type} [DecidableEq κ] : List (κ × α) → κ → List (κ × α)
  | [], _ => []
  | (k, v) :: rest, key => if k = key then eraseKey rest key else (k, v) :: eraseKey rest key

/-- Bind a key to a value, replacing any previous binding
(Python `d[k] = v` / overwriting file write). -/
def setKey {κ : Type} {α : Type} [DecidableEq κ] (m : List (κ × α)) (k : κ) (v : α) :
    List (κ × α) :=
  (k, v) :: eraseKey m k

/-- Model of Python `str.strip()` with no argument: drop ASCII whitespace
from both ends.  (Python also strips some exotic Unicode whitespace;
the handlers only ever meet form fields, where that difference is
immaterial.) -/
def pyStrip (s : String) : String :=
  String.mk (((s.data.dropWhile Char.isWhitespace).reverse.dropWhile Char.isWhitespace).reverse)

/-- Accumulator loop of `pyIntOfStr`: value of a nonempty decimal digit
string, `none` on the first non-digit. -/
def digitsValAux : List Char → Nat → Option Nat
  | [], acc => some acc
  | c :: rest, acc =>
    if c.isDigit then digitsValAux rest (acc * 10 + (c.toNat - 48)) else none

/-- Value of a nonempty string of decimal digits, `none` otherwise. -/
def digitsVal : List Char → Option Nat
  | [] => none
  | c :: rest => digitsValAux (c :: rest) 0

/-- Model of Python `int(s)` on an already-stripped string: an optional
sign followed by decimal digits, `none` (a `ValueError`) on anything else.
(Python additionally allows underscore digit separators and Unicode
digits; clients of this API send plain decimal indices.) -/
def pyIntOfStr (s : String) : Option Int :=
  match s.data with
  | '-' :: rest => (digitsVal rest).map (fun n => -(n : Int))
  | '+' :: rest => (digitsVal rest).map (fun n => (n : Int))
  | l => (digitsVal l).map (fun n => (n : Int))

/-- Upload configuration, mirroring the `UploadConfig` dataclass of
`src/app.py` (lines 37-57); only the fields the three handlers read. -/
structure UploadConfig where
  max_file_size_mb : Nat
  default_chunk_size_mb : Nat
  max_concurrency : Nat

/-- Mirrors `UploadConfig.max_file_size_bytes` (line 48). -/
def UploadConfig.max_file_size_bytes (c : UploadConfig) : Nat :=
  c.max_file_size_mb * 1024 * 1024

/-- Mirrors `UploadConfig.default_chunk_size_bytes` (line 52). -/
def UploadConfig.default_chunk_size_bytes (c : UploadConfig) : Nat :=
  c.default_chunk_size_mb * 1024 * 1024

/-- One entry of `upload_sessions` (lines 176-182). -/
structure SessionInfo where
  filename : String
  size : Int
  mime : String
  client_msg_id : String
  created_at : String
deriving DecidableEq

/-- One multipart file part, as werkzeug hands it to `request.files.get`:
a `FileStorage` with a client-supplied file name and a byte stream.
`FileStorage.__bool__` is `bool(self.filename)`, so the part is falsy
exactly when its file name is empty; the byte content plays no role in
the `if not chunk_file` check of line 208. -/
structure FilePart where
  filename : String
  content : List Nat
deriving DecidableEq

/-- One entry of `uploaded_files` (lines 273-282). -/
structure FileEntry where
  file_id : String
  original_name : String
  stored_name : String
  size : Int
  mime : String
  uploaded_at : String
  client_msg_id : String
  url : String
deriving DecidableEq

/-- The shared mutable state of the upload subsystem:
`upload_sessions` is the dict of the same name (line 117); `chunk_dir` is
the staging tree under `UPLOAD_CONFIG.chunk_dir` (key = upload id =
subdirectory name, value = the chunk files in it, keyed by index);
`upload_dir` is the finished-file area under `UPLOAD_CONFIG.upload_dir`
(key = stored file name, value = bytes); `uploaded_files` is the dict of
the same name (line 118). -/
structure St where
  upload_sessions : List (String × SessionInfo)
  chunk_dir : List (String × List (Nat × List Nat))
  upload_dir : List (String × List Nat)
  uploaded_files : List (String × FileEntry)
deriving DecidableEq

/-- Errors of `upload_init` with their HTTP statuses: `invalidRequest` is
the 400 of line 170 and `fileTooLarge` the 413 of line 173. -/
inductive InitError
  | invalidRequest
  | fileTooLarge
deriving DecidableEq

/-- Successful `upload_init` response body (lines 185-196). -/
structure InitOk where
  upload_id : String
  chunk_size : Nat
  max_concurrency : Nat
  max_file_size : Nat
deriving DecidableEq

/-- Request body of `/api/upload/init`: `filename`, `size`, `mime`,
`client_msg_id` as extracted on lines 163-167 before stripping; a missing
string field arrives as `""` (the `or ""` default) and a missing `size`
as `0` (the `or 0` default of line 165). -/
structure InitReq where
  filename : String
  size : Int
  mime : String
  client_msg_id : String
deriving DecidableEq

/-- The handler `upload_init` (lines 161-196).  `freshId` stands for the
`uuid4` drawn on line 175 and `now` for `datetime.utcnow()` of line 181. -/
def upload_init (cfg : UploadConfig) (st : St) (freshId now : String) (r : InitReq) :
    Except InitError InitOk × St :=
  let filename := pyStrip r.filename
  if filename = "" then (.error .invalidRequest, st)
  else if r.size ≤ 0 then (.error .invalidRequest, st)
  else if (cfg.max_file_size_bytes : Int) < r.size then (.error .fileTooLarge, st)
  else
    let info : SessionInfo := ⟨filename, r.size, pyStrip r.mime, pyStrip r.client_msg_id, now⟩
    let st₁ : St := { st with upload_sessions := setKey st.upload_sessions freshId info }
    let st₂ : St :=
      { st₁ with chunk_dir := match find? st₁.chunk_dir freshId with
          | some _ => st₁.chunk_dir
          | none => setKey st₁.chunk_dir freshId [] }
    (.ok ⟨freshId, cfg.default_chunk_size_bytes, cfg.max_concurrency, cfg.max_file_size_bytes⟩, st₂)

/-- Errors of `upload_chunk` with their statuses: `sessionNotFound` is the
404 of line 207, `incompleteRequest` the 400 of line 209
("分片信息不完整"), `invalidChunkIndex` the 400 of lines 215 and 218
(the source distinguishes the messages "分片序号非法" and "分片序号越界";
both are the spec's `InvalidChunkIndex`). -/
inductive ChunkError
  | sessionNotFound
  | incompleteRequest
  | invalidChunkIndex
deriving DecidableEq

/-- Multipart form of `/api/upload/chunk` as read on lines 201-204:
the three text fields before stripping (missing field = `""`) and the
optional file part `chunk`. -/
structure ChunkReq where
  upload_id : String
  index_raw : String
  total_raw : String
  chunk : Option FilePart
deriving DecidableEq

/-- Truthiness of `chunk_file` on line 208: `None` and a `FileStorage`
with an empty file name are falsy. -/
def chunkFalsy : Option FilePart → Bool
  | none => true
  | some f => f.filename == ""

/-- Byte content of the file part (the stream copied on lines 224-230). -/
def chunkContent : Option FilePart → List Nat
  | none => []
  | some f => f.content

/-- The filesystem effect of lines 220-230: ensure the session's staging
subdirectory exists (`mkdir(parents=True, exist_ok=True)`) and write the
byte content to `chunk_{index:06d}.part`, overwriting any previous file. -/
def writeChunkFile (st : St) (uid : String) (idx : Nat) (content : List Nat) : St :=
  let dir := match find? st.chunk_dir uid with
    | some m => m
    | none => []
  { st with chunk_dir := setKey st.chunk_dir uid (setKey dir idx content) }

/-- The handler `upload_chunk` (lines 199-232).  `pyIntOfStr` models
Python's `int(...)` on the already-stripped form field. -/
def upload_chunk (st : St) (r : ChunkReq) : Except ChunkError Unit × St :=
  let uid := pyStrip r.upload_id
  let idxRaw := pyStrip r.index_raw
  let totRaw := pyStrip r.total_raw
  if uid = "" then (.error .sessionNotFound, st)
  else match find? st.upload_sessions uid with
  | none => (.error .sessionNotFound, st)
  | some _ =>
    if chunkFalsy r.chunk then (.error .incompleteRequest, st)
    else if idxRaw = "" then (.error .incompleteRequest, st)
    else if totRaw = "" then (.error .incompleteRequest, st)
    else match pyIntOfStr idxRaw, pyIntOfStr totRaw with
    | some index, some totalChunks =>
      if index < 0 then (.error .invalidChunkIndex, st)
      else if totalChunks ≤ 0 then (.error .invalidChunkIndex, st)
      else if totalChunks ≤ index then (.error .invalidChunkIndex, st)
      else (.ok (), writeChunkFile st uid index.toNat (chunkContent r.chunk))
    | _, _ => (.error .invalidChunkIndex, st)

/-- Errors of `upload_complete` (the spec's `SessionNotFound`,
`InvalidRequest` on non-positive `totalChunks`, `StagingDirectoryMissing`
and `IncompleteUpload`). -/
inductive CompleteError
  | sessionNotFound
  | invalidTotal
  | stagingDirMissing
  | incompleteUpload
deriving DecidableEq

/-- HTTP status of each `upload_complete` error: 404 on lines 242 and 249,
400 on lines 244 and 253. -/
def completeStatus : CompleteError → Nat
  | .sessionNotFound => 404
  | .invalidTotal => 400
  | .stagingDirMissing => 404
  | .incompleteUpload => 400

/-- Error message of each `upload_complete` error, verbatim from
lines 242, 244, 249 and 253. -/
def completeMsg : CompleteError → String
  | .sessionNotFound => "上传会话不存在"
  | .invalidTotal => "分片数量非法"
  | .stagingDirMissing => "分片目录不存在"
  | .incompleteUpload => "分片不完整"

/-- The handler `upload_complete` (lines 235-301).  `sf` stands for the
external `werkzeug.secure_filename` (line 255) and `now` for
`datetime.utcnow()` (line 279).  The success state performs, in one step,
the writes of lines 259-283: finished file written, chunk files and the
then-empty staging directory removed, `uploaded_files` entry registered.
The chat message appended on lines 285-300 is outside the modelled
subsystem.  `totalChunks` is the JSON number of line 239 (missing = 0). -/
def upload_complete (sf : String → String) (now : String) (st : St)
    (upload_id_raw : String) (totalChunks : Int) : Except CompleteError FileEntry × St :=
  let uid := pyStrip upload_id_raw
  if uid = "" then (.error .sessionNotFound, st)
  else match find? st.upload_sessions uid with
  | none => (.error .sessionNotFound, st)
  | some info =>
    if totalChunks ≤ 0 then (.error .invalidTotal, st)
    else
      let st₁ : St := { st with upload_sessions := eraseKey st.upload_sessions uid }
      match find? st.chunk_dir uid with
      | none => (.error .stagingDirMissing, st₁)
      | some dir =>
        if (List.range totalChunks.toNat).all (fun i => (find? dir i).isSome) then
          let bytes := ((List.range totalChunks.toNat).map (fun i => (find? dir i).getD [])).flatten
          let safeName := if sf info.filename = "" then uid ++ ".bin" else sf info.filename
          let stored_name := uid ++ "_" ++ safeName
          let entry : FileEntry :=
            ⟨uid, info.filename, stored_name, info.size, info.mime, now, info.client_msg_id,
              "/media/" ++ uid⟩
          (.ok entry,
            { st₁ with
                chunk_dir := eraseKey st₁.chunk_dir uid,
                upload_dir := setKey st₁.upload_dir stored_name bytes,
                uploaded_files := setKey st₁.uploaded_files uid entry })
        else (.error .incompleteUpload, st₁)

/-- Decimal digits of `n`, most significant first, as Python `str(n)`
prints them; `fuel` only bounds the recursion (`fuel > n` suffices). -/
def decimalDigits : Nat → Nat → List Nat
  | 0, _ => []
  | fuel + 1, n => if n < 10 then [n] else decimalDigits fuel (n / 10) ++ [n % 10]

/-- The lowest `w` decimal digits of `n`, most significant first; for
`n < 10^w` this is `n` zero-padded to width `w`. -/
def padDigits : Nat → Nat → List Nat
  | 0, _ => []
  | w + 1, n => padDigits w (n / 10) ++ [n % 10]

/-- The chunk file name `f"chunk_{index:06d}.part"` of lines 222, 252 and
261: the decimal representation of `index` left-padded with `'0'` to a
minimum width of 6, between `"chunk_"` and `".part"`. -/
def chunkFileName (index : Nat) : String :=
  let ds := decimalDigits (index + 1) index
  "chunk_" ++ String.mk ((List.replicate (6 - ds.length) 0 ++ ds).map Nat.digitChar) ++ ".part"

example : chunkFileName 0 = "chunk_000000.part" := by rfl
example : chunkFileName 42 = "chunk_000042.part" := by rfl
example : chunkFileName 999999 = "chunk_999999.part" := by rfl
example : chunkFileName 1000000 = "chunk_1000000.part" := by rfl

example : upload_chunk ⟨[("u", ⟨"a.txt", 3, "text/plain", "", "t"⟩)], [], [], []⟩
    ⟨"u", "0", "2", some ⟨"a.txt", [1, 2]⟩⟩ =
    (.ok (), ⟨[("u", ⟨"a.txt", 3, "text/plain", "", "t"⟩)], [("u", [(0, [1, 2])])], [], []⟩) := by
  rfl

example : (upload_init ⟨1, 10, 3⟩ ⟨[], [], [], []⟩ "u" "t" ⟨" f.txt ", 5, "x", "c"⟩).fst =
    .ok ⟨"u", 10485760, 3, 1048576⟩ := by rfl

/-- Content of the chunk file for index `i` of upload `uid`, `none` when
the staging subdirectory or the chunk file does not exist. -/
def chunkAt (st : St) (uid : String) (i : Nat) : Option (List Nat) :=
  match find? st.chunk_dir uid with
  | none => none
  | some dir => find? dir i

/-- Apply a whole arrival sequence of chunk writes (index, bytes) for one
upload, in the given order. -/
def applyWrites (st : St) (uid : String) (ops : List (Nat × List Nat)) : St :=
  ops.foldl (fun s p => writeChunkFile s uid p.1 p.2) st

/-- Content of the last write to index `i` in an arrival sequence. -/
def lastWrite : List (Nat × List Nat) → Nat → Option (List Nat)
  | [], _ => none
  | (j, c) :: rest, i =>
    match lastWrite rest i with
    | some c' => some c'
    | none => if j = i then some c else none

section MapLemmas

variable {κ α : Type} [DecidableEq κ]

theorem find?_eraseKey_self (m : List (κ × α)) (k : κ) : find? (eraseKey m k) k = none := by
  induction m with
  | nil => simp [eraseKey, find?]
  | cons p rest ih =>
    obtain ⟨a, b⟩ := p
    by_cases h : a = k
    · simpa [eraseKey, h] using ih
    · simp [eraseKey, h, find?, ih]

theorem find?_eraseKey_ne (m : List (κ × α)) (k k' : κ) (h : k' ≠ k) :
    find? (eraseKey m k) k' = find? m k' := by
  induction m with
  | nil => simp [eraseKey]
  | cons p rest ih =>
    obtain ⟨a, b⟩ := p
    by_cases ha : a = k
    · simp [eraseKey, ha, find?, Ne.symm h, ih]
    · simp [eraseKey, ha, find?, ih]

theorem find?_setKey_self (m : List (κ × α)) (k : κ) (v : α) :
    find? (setKey m k v) k = some v := by
  simp [setKey, find?]

theorem find?_setKey_ne (m : List (κ × α)) (k k' : κ) (v : α) (h : k' ≠ k) :
    find? (setKey m k v) k' = find? m k' := by
  simp [setKey, find?, Ne.symm h, find?_eraseKey_ne m k k' h]

end MapLemmas

theorem upload_sessions_writeChunkFile (st : St) (uid : String) (j : Nat) (c : List Nat) :
    (writeChunkFile st uid j c).upload_sessions = st.upload_sessions := rfl

theorem chunkAt_writeChunkFile (st : St) (uid : String) (j : Nat) (c : List Nat) (i : Nat) :
    chunkAt (writeChunkFile st uid j c) uid i = if j = i then some c else chunkAt st uid i := by
  by_cases h : j = i
  · subst h
    cases hd : find? st.chunk_dir uid <;>
      simp [writeChunkFile, chunkAt, hd, find?_setKey_self]
  · cases hd : find? st.chunk_dir uid with
    | none =>
      simp [writeChunkFile, chunkAt, hd, h, find?_setKey_self,
        find?_setKey_ne ([] : List (Nat × List Nat)) j i c (Ne.symm h), find?]
    | some dir =>
      simp [writeChunkFile, chunkAt, hd, h, find?_setKey_self,
        find?_setKey_ne dir j i c (Ne.symm h)]

theorem upload_sessions_applyWrites (st : St) (uid : String) (ops : List (Nat × List Nat)) :
    (applyWrites st uid ops).upload_sessions = st.upload_sessions := by
  induction ops generalizing st with
  | nil => rfl
  | cons p rest ih => exact (ih (writeChunkFile st uid p.1 p.2)).trans rfl

theorem chunkAt_applyWrites (st : St) (uid : String) (ops : List (Nat × List Nat)) (i : Nat) :
    chunkAt (applyWrites st uid ops) uid i =
      match lastWrite ops i with
      | some c => some c
      | none => chunkAt st uid i := by
  induction ops generalizing st with
  | nil => simp [applyWrites, lastWrite]
  | cons p rest ih =>
    obtain ⟨j, c⟩ := p
    have : applyWrites st uid ((j, c) :: rest) = applyWrites (writeChunkFile st uid j c) uid rest :=
      rfl
    rw [this, ih]
    cases h : lastWrite rest i with
    | some c' => simp [lastWrite, h]
    | none =>
      by_cases hj : j = i <;> simp [lastWrite, h, chunkAt_writeChunkFile, hj]

theorem chunkAt_eq_some_elim (st : St) (uid : String) (i : Nat) (c : List Nat)
    (h : chunkAt st uid i = some c) :
    ∃ dir, find? st.chunk_dir uid = some dir ∧ find? dir i = some c := by
  unfold chunkAt at h
  cases hd : find? st.chunk_dir uid with
  | none => rw [hd] at h; cases h
  | some dir => rw [hd] at h; exact ⟨dir, rfl, h⟩

theorem range_all_isSome_iff (dir : List (Nat × List Nat)) (n : Nat) :
    ((List.range n).all (fun i => (find? dir i).isSome) = true) ↔
      ∀ i < n, (find? dir i).isSome := by
  simp [List.all_eq_true, List.mem_range]

theorem upload_complete_notFound (sf : String → String) (now : String) (st : St)
    (u : String) (total : Int) (hu : pyStrip u = u)
    (h : u = "" ∨ find? st.upload_sessions u = none) :
    upload_complete sf now st u total = (.error .sessionNotFound, st) := by
  by_cases he : u = ""
  · subst he
    simp [upload_complete, show pyStrip "" = "" from rfl]
  · rcases h with h | h
    · exact absurd h he
    · simp [upload_complete, hu, he, h]

theorem upload_complete_invalidTotal (sf : String → String) (now : String) (st : St)
    (u : String) (total : Int) (info : SessionInfo) (hu : pyStrip u = u) (hne : u ≠ "")
    (hs : find? st.upload_sessions u = some info) (ht : total ≤ 0) :
    upload_complete sf now st u total = (.error .invalidTotal, st) := by
  simp [upload_complete, hu, hne, hs, ht]

theorem upload_complete_dirMissing (sf : String → String) (now : String) (st : St)
    (u : String) (total : Int) (info : SessionInfo) (hu : pyStrip u = u) (hne : u ≠ "")
    (hs : find? st.upload_sessions u = some info) (ht : 0 < total)
    (hd : find? st.chunk_dir u = none) :
    upload_complete sf now st u total =
      (.error .stagingDirMissing, { st with upload_sessions := eraseKey st.upload_sessions u }) := by
  simp [upload_complete, hu, hne, hs, not_le.mpr ht, hd]

theorem upload_complete_incomplete (sf : String → String) (now : String) (st : St)
    (u : String) (total : Int) (info : SessionInfo) (dir : List (Nat × List Nat))
    (hu : pyStrip u = u) (hne : u ≠ "")
    (hs : find? st.upload_sessions u = some info) (ht : 0 < total)
    (hd : find? st.chunk_dir u = some dir)
    (hmiss : ¬ ∀ i < total.toNat, (find? dir i).isSome) :
    upload_complete sf now st u total =
      (.error .incompleteUpload, { st with upload_sessions := eraseKey st.upload_sessions u }) := by
  have hall : ((List.range total.toNat).all (fun i => (find? dir i).isSome)) = false := by
    cases hb : (List.range total.toNat).all (fun i => (find? dir i).isSome) with
    | true => exact absurd ((range_all_isSome_iff dir total.toNat).mp hb) hmiss
    | false => rfl
  simp [upload_complete, hu, hne, hs, not_le.mpr ht, hd, hall]

theorem upload_complete_ok (sf : String → String) (now : String) (st : St)
    (u : String) (total : Int) (info : SessionInfo) (dir : List (Nat × List Nat))
    (hu : pyStrip u = u) (hne : u ≠ "")
    (hs : find? st.upload_sessions u = some info) (ht : 0 < total)
    (hd : find? st.chunk_dir u = some dir)
    (hall : ∀ i < total.toNat, (find? dir i).isSome) :
    upload_complete sf now st u total =
      (.ok ⟨u, info.filename,
            u ++ "_" ++ (if sf info.filename = "" then u ++ ".bin" else sf info.filename),
            info.size, info.mime, now, info.client_msg_id, "/media/" ++ u⟩,
        { upload_sessions := eraseKey st.upload_sessions u,
          chunk_dir := eraseKey st.chunk_dir u,
          upload_dir := setKey st.upload_dir
            (u ++ "_" ++ (if sf info.filename = "" then u ++ ".bin" else sf info.filename))
            (((List.range total.toNat).map (fun i => (find? dir i).getD [])).flatten),
          uploaded_files := setKey st.uploaded_files u
            ⟨u, info.filename,
              u ++ "_" ++ (if sf info.filename = "" then u ++ ".bin" else sf info.filename),
              info.size, info.mime, now, info.client_msg_id, "/media/" ++ u⟩ }) := by
  have hall' : ((List.range total.toNat).all (fun i => (find? dir i).isSome)) = true :=
    (range_all_isSome_iff dir total.toNat).mpr hall
  simp [upload_complete, hu, hne, hs, not_le.mpr ht, hd, hall']

theorem chunkAt_of_dir (st : St) (uid : String) (dir : List (Nat × List Nat)) (i : Nat)
    (hd : find? st.chunk_dir uid = some dir) : chunkAt st uid i = find? dir i := by
  unfold chunkAt
  rw [hd]

theorem upload_chunk_ok (st : St) (u idxS totS f : String) (c : List Nat)
    (i total : Int) (info : SessionInfo)
    (hu : pyStrip u = u) (hne : u ≠ "")
    (hs : find? st.upload_sessions u = some info)
    (hf : f ≠ "")
    (hidxne : pyStrip idxS ≠ "") (htotne : pyStrip totS ≠ "")
    (hidx : pyIntOfStr (pyStrip idxS) = some i)
    (htot : pyIntOfStr (pyStrip totS) = some total)
    (h0 : 0 ≤ i) (hit : i < total) :
    upload_chunk st ⟨u, idxS, totS, some ⟨f, c⟩⟩ = (.ok (), writeChunkFile st u i.toNat c) := by
  simp [upload_chunk, hu, hne, hs, chunkFalsy, hf, hidxne, htotne, hidx, htot, chunkContent,
    not_lt.mpr h0, not_le.mpr (lt_of_le_of_lt h0 hit), not_le.mpr hit]

theorem complete_of_chunkAt (sf : String → String) (now : String) (st : St)
    (u : String) (total : Int) (info : SessionInfo) (ctn : Nat → List Nat)
    (hu : pyStrip u = u) (hne : u ≠ "")
    (hs : find? st.upload_sessions u = some info) (ht : 0 < total)
    (hch : ∀ i < total.toNat, chunkAt st u i = some (ctn i)) :
    ∃ entry : FileEntry,
      (upload_complete sf now st u total).fst = .ok entry ∧
      find? (upload_complete sf now st u total).snd.upload_dir entry.stored_name =
        some ((List.range total.toNat).map ctn).flatten := by
  have h0 : (0 : Nat) < total.toNat := by omega
  obtain ⟨dir, hd, _⟩ := chunkAt_eq_some_elim st u 0 (ctn 0) (hch 0 h0)
  have hlook : ∀ i < total.toNat, find? dir i = some (ctn i) := fun i hi => by
    have h := hch i hi
    rwa [chunkAt_of_dir st u dir i hd] at h
  have hall : ∀ i < total.toNat, (find? dir i).isSome := fun i hi => by
    rw [hlook i hi]; rfl
  rw [upload_complete_ok sf now st u total info dir hu hne hs ht hd hall]
  have hmap : (List.range total.toNat).map (fun i => (find? dir i).getD []) =
      (List.range total.toNat).map ctn :=
    List.map_congr_left (fun i hi => by rw [hlook i (List.mem_range.mp hi)]; rfl)
  exact ⟨_, rfl, by simp [find?_setKey_self, hmap]⟩

/-- C1: for every completed upload, the bytes of the finished file equal the
exact concatenation of the latest-written chunk contents in ascending index
order over `[0, totalChunks)`, for an arbitrary arrival sequence `ops` of
chunk writes (any order, any permutation, any retransmissions). -/
theorem c1_reassembly_is_ascending_concat_of_last_writes
    (sf : String → String) (now : String) (st₀ : St) (u : String) (total : Int)
    (info : SessionInfo) (ops : List (Nat × List Nat)) (ctn : Nat → List Nat)
    (hu : pyStrip u = u) (hne : u ≠ "")
    (hs : find? st₀.upload_sessions u = some info)
    (ht : 0 < total)
    (hcov : ∀ i < total.toNat, lastWrite ops i = some (ctn i)) :
    ∃ entry : FileEntry,
      (upload_complete sf now (applyWrites st₀ u ops) u total).fst = .ok entry ∧
      find? (upload_complete sf now (applyWrites st₀ u ops) u total).snd.upload_dir
          entry.stored_name
        = some ((List.range total.toNat).map ctn).flatten := by
  have hs' : find? (applyWrites st₀ u ops).upload_sessions u = some info := by
    rw [upload_sessions_applyWrites]; exact hs
  have hch : ∀ i < total.toNat, chunkAt (applyWrites st₀ u ops) u i = some (ctn i) := by
    intro i hi
    rw [chunkAt_applyWrites, hcov i hi]
  exact complete_of_chunkAt sf now (applyWrites st₀ u ops) u total info ctn hu hne hs' ht hch

theorem c1_witness :
    (∀ i < (2 : Int).toNat,
        lastWrite [(1, [4, 5]), (0, [1, 2])] i =
          some (if i = 0 then [1, 2] else [4, 5])) ∧
    ∃ entry : FileEntry,
      (upload_complete (fun s => s) "t"
          (applyWrites ⟨[("u", ⟨"a.bin", 4, "m", "c", "t0"⟩)], [], [], []⟩ "u"
            [(1, [4, 5]), (0, [1, 2])]) "u" 2).fst = .ok entry ∧
      find? (upload_complete (fun s => s) "t"
          (applyWrites ⟨[("u", ⟨"a.bin", 4, "m", "c", "t0"⟩)], [], [], []⟩ "u"
            [(1, [4, 5]), (0, [1, 2])]) "u" 2).snd.upload_dir entry.stored_name
        = some ((List.range (2 : Int).toNat).map (fun i => if i = 0 then [1, 2] else [4, 5])).flatten :=
  ⟨by decide,
    c1_reassembly_is_ascending_concat_of_last_writes (fun s => s) "t"
      ⟨[("u", ⟨"a.bin", 4, "m", "c", "t0"⟩)], [], [], []⟩ "u" 2
      ⟨"a.bin", 4, "m", "c", "t0"⟩ [(1, [4, 5]), (0, [1, 2])]
      (fun i => if i = 0 then [1, 2] else [4, 5])
      (by decide) (by decide) (by decide) (by decide) (by decide)⟩

/-- C2: against a live session with positive `totalChunks` and an existing
staging directory, completion succeeds iff a chunk file exists for every
index in `[0, totalChunks)`; when some index is missing it fails with
`IncompleteUpload` and both the staging area and the finished-file area
are untouched. -/
theorem c2_complete_iff_every_chunk_present
    (sf : String → String) (now : String) (st : St) (u : String) (total : Int)
    (info : SessionInfo) (dir : List (Nat × List Nat))
    (hu : pyStrip u = u) (hne : u ≠ "")
    (hs : find? st.upload_sessions u = some info) (ht : 0 < total)
    (hd : find? st.chunk_dir u = some dir) :
    ((∃ e, (upload_complete sf now st u total).fst = .ok e) ↔
        ∀ i < total.toNat, (find? dir i).isSome) ∧
      ((¬ ∀ i < total.toNat, (find? dir i).isSome) →
        (upload_complete sf now st u total).fst = .error .incompleteUpload ∧
          (upload_complete sf now st u total).snd.chunk_dir = st.chunk_dir ∧
          (upload_complete sf now st u total).snd.upload_dir = st.upload_dir) := by
  by_cases hall : ∀ i < total.toNat, (find? dir i).isSome
  · rw [upload_complete_ok sf now st u total info dir hu hne hs ht hd hall]
    exact ⟨⟨fun _ => hall, fun _ => ⟨_, rfl⟩⟩, fun h => absurd hall h⟩
  · rw [upload_complete_incomplete sf now st u total info dir hu hne hs ht hd hall]
    refine ⟨⟨fun h => ?_, fun h => absurd h hall⟩, fun _ => ⟨rfl, rfl, rfl⟩⟩
    obtain ⟨e, he⟩ := h
    exact Except.noConfusion he

theorem c2_witness :
    (¬ ∀ i < (2 : Int).toNat, (find? [(0, [9])] i).isSome) ∧
    ((upload_complete (fun s => s) "t" ⟨[("u", ⟨"a.bin", 4, "m", "c", "t0"⟩)],
          [("u", [(0, [9])])], [], []⟩ "u" 2).fst = .error .incompleteUpload ∧
      (upload_complete (fun s => s) "t" ⟨[("u", ⟨"a.bin", 4, "m", "c", "t0"⟩)],
          [("u", [(0, [9])])], [], []⟩ "u" 2).snd.chunk_dir = [("u", [(0, [9])])] ∧
      (upload_complete (fun s => s) "t" ⟨[("u", ⟨"a.bin", 4, "m", "c", "t0"⟩)],
          [("u", [(0, [9])])], [], []⟩ "u" 2).snd.upload_dir = []) :=
  ⟨by decide,
    (c2_complete_iff_every_chunk_present (fun s => s) "t"
        ⟨[("u", ⟨"a.bin", 4, "m", "c", "t0"⟩)], [("u", [(0, [9])])], [], []⟩ "u" 2
        ⟨"a.bin", 4, "m", "c", "t0"⟩ [(0, [9])]
        (by decide) (by decide) (by decide) (by decide) (by decide)).2 (by decide)⟩

/-- C3: any completion attempt against a live session with positive
`totalChunks` removes the session from the registry, whatever the outcome,
so every later completion call on the same upload_id fails with
`SessionNotFound`. -/
theorem c3_complete_consumes_session
    (sf : String → String) (now : String) (st : St) (u : String) (total : Int)
    (info : SessionInfo)
    (hu : pyStrip u = u) (hne : u ≠ "")
    (hs : find? st.upload_sessions u = some info) (ht : 0 < total) :
    find? (upload_complete sf now st u total).snd.upload_sessions u = none ∧
      ∀ (sf₂ : String → String) (now₂ : String) (total₂ : Int),
        (upload_complete sf₂ now₂ (upload_complete sf now st u total).snd u total₂).fst =
          .error .sessionNotFound := by
  have key : find? (upload_complete sf now st u total).snd.upload_sessions u = none := by
    cases hd : find? st.chunk_dir u with
    | none =>
      rw [upload_complete_dirMissing sf now st u total info hu hne hs ht hd]
      exact find?_eraseKey_self _ _
    | some dir =>
      by_cases hall : ∀ i < total.toNat, (find? dir i).isSome
      · rw [upload_complete_ok sf now st u total info dir hu hne hs ht hd hall]
        exact find?_eraseKey_self _ _
      · rw [upload_complete_incomplete sf now st u total info dir hu hne hs ht hd hall]
        exact find?_eraseKey_self _ _
  refine ⟨key, fun sf₂ now₂ total₂ => ?_⟩
  rw [upload_complete_notFound sf₂ now₂ _ u total₂ hu (Or.inr key)]

theorem c3_witness :
    find? (upload_complete (fun s => s) "t" ⟨[("u", ⟨"a.bin", 4, "m", "c", "t0"⟩)],
        [("u", [(0, [9])])], [], []⟩ "u" 1).snd.upload_sessions "u" = none ∧
    (upload_complete (fun s => s) "t2"
        (upload_complete (fun s => s) "t" ⟨[("u", ⟨"a.bin", 4, "m", "c", "t0"⟩)],
          [("u", [(0, [9])])], [], []⟩ "u" 1).snd "u" 1).fst = .error .sessionNotFound :=
  ⟨(c3_complete_consumes_session (fun s => s) "t"
      ⟨[("u", ⟨"a.bin", 4, "m", "c", "t0"⟩)], [("u", [(0, [9])])], [], []⟩ "u" 1
      ⟨"a.bin", 4, "m", "c", "t0"⟩ (by decide) (by decide) (by decide) (by decide)).1,
    (c3_complete_consumes_session (fun s => s) "t"
      ⟨[("u", ⟨"a.bin", 4, "m", "c", "t0"⟩)], [("u", [(0, [9])])], [], []⟩ "u" 1
      ⟨"a.bin", 4, "m", "c", "t0"⟩ (by decide) (by decide) (by decide) (by decide)).2
      (fun s => s) "t2" 1⟩

/-- C4: sending the same `(upload_id, index)` chunk twice with different
contents succeeds both times, overwrites the chunk file in place so that it
holds the second content, and completion then reassembles the finished file
with the second content at position `index`. -/
theorem c4_second_chunk_content_wins
    (st : St) (u idxS totS f₁ f₂ : String) (c₁ c₂ : List Nat) (i total : Int)
    (info : SessionInfo)
    (hu : pyStrip u = u) (hne : u ≠ "")
    (hs : find? st.upload_sessions u = some info)
    (hf₁ : f₁ ≠ "") (hf₂ : f₂ ≠ "")
    (hidxne : pyStrip idxS ≠ "") (htotne : pyStrip totS ≠ "")
    (hidx : pyIntOfStr (pyStrip idxS) = some i)
    (htot : pyIntOfStr (pyStrip totS) = some total)
    (h0 : 0 ≤ i) (hit : i < total)
    (_hdiff : c₁ ≠ c₂) :
    (upload_chunk st ⟨u, idxS, totS, some ⟨f₁, c₁⟩⟩).fst = .ok () ∧
    (upload_chunk (upload_chunk st ⟨u, idxS, totS, some ⟨f₁, c₁⟩⟩).snd
        ⟨u, idxS, totS, some ⟨f₂, c₂⟩⟩).fst = .ok () ∧
    chunkAt (upload_chunk (upload_chunk st ⟨u, idxS, totS, some ⟨f₁, c₁⟩⟩).snd
        ⟨u, idxS, totS, some ⟨f₂, c₂⟩⟩).snd u i.toNat = some c₂ ∧
    ∀ (sf : String → String) (now : String) (ctn : Nat → List Nat),
      (∀ j < total.toNat, j ≠ i.toNat →
        chunkAt (upload_chunk (upload_chunk st ⟨u, idxS, totS, some ⟨f₁, c₁⟩⟩).snd
            ⟨u, idxS, totS, some ⟨f₂, c₂⟩⟩).snd u j = some (ctn j)) →
      ∃ entry : FileEntry,
        (upload_complete sf now
            (upload_chunk (upload_chunk st ⟨u, idxS, totS, some ⟨f₁, c₁⟩⟩).snd
              ⟨u, idxS, totS, some ⟨f₂, c₂⟩⟩).snd u total).fst = .ok entry ∧
        find? (upload_complete sf now
            (upload_chunk (upload_chunk st ⟨u, idxS, totS, some ⟨f₁, c₁⟩⟩).snd
              ⟨u, idxS, totS, some ⟨f₂, c₂⟩⟩).snd u total).snd.upload_dir entry.stored_name
          = some ((List.range total.toNat).map
              (fun j => if j = i.toNat then c₂ else ctn j)).flatten := by
  have e₁ := upload_chunk_ok st u idxS totS f₁ c₁ i total info hu hne hs hf₁
    hidxne htotne hidx htot h0 hit
  have hs₁ : find? (writeChunkFile st u i.toNat c₁).upload_sessions u = some info := hs
  have e₂ := upload_chunk_ok (writeChunkFile st u i.toNat c₁) u idxS totS f₂ c₂ i total info
    hu hne hs₁ hf₂ hidxne htotne hidx htot h0 hit
  rw [e₁]
  simp only []
  rw [e₂]
  simp only []
  have hover : chunkAt (writeChunkFile (writeChunkFile st u i.toNat c₁) u i.toNat c₂) u i.toNat
      = some c₂ := by
    rw [chunkAt_writeChunkFile]
    simp
  refine ⟨trivial, trivial, hover, fun sf now ctn hctn => ?_⟩
  have hs₂ : find? (writeChunkFile (writeChunkFile st u i.toNat c₁) u i.toNat c₂).upload_sessions u
      = some info := hs
  have hch : ∀ j < total.toNat,
      chunkAt (writeChunkFile (writeChunkFile st u i.toNat c₁) u i.toNat c₂) u j
        = some (if j = i.toNat then c₂ else ctn j) := by
    intro j hj
    by_cases hji : j = i.toNat
    · rw [if_pos hji, hji]
      exact hover
    · rw [if_neg hji]
      exact hctn j hj hji
  exact complete_of_chunkAt sf now _ u total info (fun j => if j = i.toNat then c₂ else ctn j)
    hu hne hs₂ (lt_of_le_of_lt h0 hit) hch

theorem c4_witness :
    pyIntOfStr (pyStrip "0") = some 0 ∧ pyIntOfStr (pyStrip "1") = some 1 ∧
    (upload_chunk ⟨[("u", ⟨"a.bin", 4, "m", "c", "t0"⟩)], [], [], []⟩
        ⟨"u", "0", "1", some ⟨"f", [7]⟩⟩).fst = .ok () ∧
    (upload_chunk (upload_chunk ⟨[("u", ⟨"a.bin", 4, "m", "c", "t0"⟩)], [], [], []⟩
          ⟨"u", "0", "1", some ⟨"f", [7]⟩⟩).snd
        ⟨"u", "0", "1", some ⟨"f", [8]⟩⟩).fst = .ok () ∧
    chunkAt (upload_chunk (upload_chunk ⟨[("u", ⟨"a.bin", 4, "m", "c", "t0"⟩)], [], [], []⟩
          ⟨"u", "0", "1", some ⟨"f", [7]⟩⟩).snd
        ⟨"u", "0", "1", some ⟨"f", [8]⟩⟩).snd "u" (0 : Int).toNat = some [8] :=
  ⟨by decide, by decide,
    (c4_second_chunk_content_wins ⟨[("u", ⟨"a.bin", 4, "m", "c", "t0"⟩)], [], [], []⟩
        "u" "0" "1" "f" "f" [7] [8] 0 1 ⟨"a.bin", 4, "m", "c", "t0"⟩
        (by decide) (by decide) (by decide) (by decide) (by decide) (by decide) (by decide)
        (by decide) (by decide) (by decide) (by decide) (by decide)).1,
    (c4_second_chunk_content_wins ⟨[("u", ⟨"a.bin", 4, "m", "c", "t0"⟩)], [], [], []⟩
        "u" "0" "1" "f" "f" [7] [8] 0 1 ⟨"a.bin", 4, "m", "c", "t0"⟩
        (by decide) (by decide) (by decide) (by decide) (by decide) (by decide) (by decide)
        (by decide) (by decide) (by decide) (by decide) (by decide)).2.1,
    (c4_second_chunk_content_wins ⟨[("u", ⟨"a.bin", 4, "m", "c", "t0"⟩)], [], [], []⟩
        "u" "0" "1" "f" "f" [7] [8] 0 1 ⟨"a.bin", 4, "m", "c", "t0"⟩
        (by decide) (by decide) (by decide) (by decide) (by decide) (by decide) (by decide)
        (by decide) (by decide) (by decide) (by decide) (by decide)).2.2.1⟩

/-- C5: `upload_init` answers `InvalidRequest` exactly on an empty
(post-strip) filename or non-positive size, answers `FileTooLarge` exactly
when those checks pass and the size strictly exceeds the configured
maximum total file size, leaves the state unchanged on both errors, and
otherwise stores the new session under the fresh upload_id, ensures its
staging subdirectory exists, and returns the fresh upload_id with the
chunk-size, concurrency and max-file-size transmission parameters. -/
theorem c5_init_classification
    (cfg : UploadConfig) (st : St) (freshId now : String) (r : InitReq) :
    ((upload_init cfg st freshId now r).fst = .error .invalidRequest ↔
        (pyStrip r.filename = "" ∨ r.size ≤ 0)) ∧
    ((upload_init cfg st freshId now r).fst = .error .fileTooLarge ↔
        (pyStrip r.filename ≠ "" ∧ 0 < r.size ∧ (cfg.max_file_size_bytes : Int) < r.size)) ∧
    (∀ e, (upload_init cfg st freshId now r).fst = .error e →
        (upload_init cfg st freshId now r).snd = st) ∧
    (pyStrip r.filename ≠ "" → 0 < r.size → r.size ≤ (cfg.max_file_size_bytes : Int) →
      ((upload_init cfg st freshId now r).fst =
          .ok ⟨freshId, cfg.default_chunk_size_bytes, cfg.max_concurrency, cfg.max_file_size_bytes⟩ ∧
        find? (upload_init cfg st freshId now r).snd.upload_sessions freshId =
          some ⟨pyStrip r.filename, r.size, pyStrip r.mime, pyStrip r.client_msg_id, now⟩ ∧
        (find? (upload_init cfg st freshId now r).snd.chunk_dir freshId).isSome)) := by
  by_cases h1 : pyStrip r.filename = ""
  · simp [upload_init, h1]
  · by_cases h2 : r.size ≤ 0
    · simp [upload_init, h1, h2]
    · by_cases h3 : (cfg.max_file_size_bytes : Int) < r.size
      · simp [upload_init, h1, h2, h3, not_le.mp h2]
      · refine ⟨by simp [upload_init, h1, h2, h3], by simp [upload_init, h1, h2, h3],
          by simp [upload_init, h1, h2, h3], fun _ _ _ => ⟨by simp [upload_init, h1, h2, h3], ?_, ?_⟩⟩
        · simp [upload_init, h1, h2, h3, find?_setKey_self]
        · cases hc : find? st.chunk_dir freshId with
          | none => simp [upload_init, h1, h2, h3, hc, find?_setKey_self]
          | some dir => simp [upload_init, h1, h2, h3, hc, find?_setKey_self]

theorem c5_witness :
    (upload_init ⟨1, 10, 3⟩ ⟨[], [], [], []⟩ "u" "t" ⟨"f.txt", 5, "m", "c"⟩).fst =
        .ok ⟨"u", 10485760, 3, 1048576⟩ ∧
    find? (upload_init ⟨1, 10, 3⟩ ⟨[], [], [], []⟩ "u" "t"
        ⟨"f.txt", 5, "m", "c"⟩).snd.upload_sessions "u" = some ⟨"f.txt", 5, "m", "c", "t"⟩ ∧
    (find? (upload_init ⟨1, 10, 3⟩ ⟨[], [], [], []⟩ "u" "t"
        ⟨"f.txt", 5, "m", "c"⟩).snd.chunk_dir "u").isSome := by
  have h := (c5_init_classification ⟨1, 10, 3⟩ ⟨[], [], [], []⟩ "u" "t"
      ⟨"f.txt", 5, "m", "c"⟩).2.2.2 (by decide) (by decide) (by decide)
  exact ⟨h.1, by rw [h.2.1]; rfl, h.2.2⟩

/-- C6: `upload_chunk` answers `SessionNotFound` exactly when the
(post-strip) upload_id is empty or absent from the registry (in particular
after the session was consumed by a completion attempt); persists nothing
unless the upload_id is present; and, for a present session with all form
fields supplied, answers `InvalidChunkIndex` exactly when the index or
total fails to parse as an integer or `0 ≤ index < totalChunks` is
violated (including non-positive `totalChunks`). -/
theorem c6_chunk_error_classification (st : St) (r : ChunkReq) :
    ((upload_chunk st r).fst = .error .sessionNotFound ↔
        (pyStrip r.upload_id = "" ∨ find? st.upload_sessions (pyStrip r.upload_id) = none)) ∧
    (find? st.upload_sessions (pyStrip r.upload_id) = none → (upload_chunk st r).snd = st) ∧
    (pyStrip r.upload_id = "" → (upload_chunk st r).snd = st) ∧
    (∀ info, pyStrip r.upload_id ≠ "" →
      find? st.upload_sessions (pyStrip r.upload_id) = some info →
      chunkFalsy r.chunk = false → pyStrip r.index_raw ≠ "" → pyStrip r.total_raw ≠ "" →
      ((upload_chunk st r).fst = .error .invalidChunkIndex ↔
        match pyIntOfStr (pyStrip r.index_raw), pyIntOfStr (pyStrip r.total_raw) with
        | some i, some t => i < 0 ∨ t ≤ 0 ∨ t ≤ i
        | _, _ => True)) := by
  refine ⟨?_, ?_, ?_, ?_⟩
  · by_cases hne : pyStrip r.upload_id = ""
    · simp [upload_chunk, hne]
    · cases hs : find? st.upload_sessions (pyStrip r.upload_id) with
      | none => simp [upload_chunk, hne, hs]
      | some info =>
        simp only [upload_chunk, hne, if_false, hs]
        constructor
        · intro h
          by_cases hcf : chunkFalsy r.chunk
          · simp [hcf] at h
          · by_cases hi : pyStrip r.index_raw = ""
            · simp [hcf, hi] at h
            · by_cases ht : pyStrip r.total_raw = ""
              · simp [hcf, hi, ht] at h
              · cases hpi : pyIntOfStr (pyStrip r.index_raw) with
                | none => simp [hcf, hi, ht, hpi] at h
                | some i =>
                  cases hpt : pyIntOfStr (pyStrip r.total_raw) with
                  | none => simp [hcf, hi, ht, hpi, hpt] at h
                  | some t =>
                    simp only [hcf, hi, ht, hpi, hpt] at h
                    split_ifs at h <;> simp_all
        · intro h
          exact absurd hs (by rcases h with h | h <;> simp_all)
  · intro hs
    by_cases hne : pyStrip r.upload_id = ""
    · simp [upload_chunk, hne]
    · simp [upload_chunk, hne, hs]
  · intro hne
    simp [upload_chunk, hne]
  · intro info hne hs hcf hi ht
    simp only [upload_chunk, hne, if_false, hs, hcf, hi, ht]
    cases hpi : pyIntOfStr (pyStrip r.index_raw) with
    | none => simp [hpi]
    | some i =>
      cases hpt : pyIntOfStr (pyStrip r.total_raw) with
      | none => simp [hpt]
      | some t =>
        by_cases hlt : i < 0
        · simp [hlt]
        · by_cases hle : t ≤ 0
          · simp [hlt, hle]
          · by_cases hti : t ≤ i
            · simp [hlt, hle, hti]
            · simp [hlt, hle, hti]

theorem c6_witness :
    ((upload_chunk ⟨[], [], [], []⟩ ⟨"u", "0", "1", some ⟨"f", [7]⟩⟩).fst =
        .error .sessionNotFound ↔
      (pyStrip "u" = "" ∨ find? ([] : List (String × SessionInfo)) (pyStrip "u") = none)) ∧
    (upload_chunk ⟨[("u", ⟨"a.bin", 4, "m", "c", "t0"⟩)], [], [], []⟩
        ⟨"u", "x", "1", some ⟨"f", [7]⟩⟩).fst = .error .invalidChunkIndex := by
  constructor
  · exact (c6_chunk_error_classification ⟨[], [], [], []⟩ ⟨"u", "0", "1", some ⟨"f", [7]⟩⟩).1
  · exact ((c6_chunk_error_classification ⟨[("u", ⟨"a.bin", 4, "m", "c", "t0"⟩)], [], [], []⟩
        ⟨"u", "x", "1", some ⟨"f", [7]⟩⟩).2.2.2 ⟨"a.bin", 4, "m", "c", "t0"⟩
        (by decide) (by decide) (by decide) (by decide) (by decide)).mpr trivial

/-- C9 counterexample: a chunk request whose payload is an empty byte
stream (with a non-empty client file name, as any browser upload has) is
NOT rejected: the handler accepts it and writes an empty chunk file for
the index, because the `if not chunk_file` check of line 208 tests
werkzeug `FileStorage` truthiness, which looks only at the file name. -/
theorem c9_counterexample :
    (upload_chunk ⟨[("u", ⟨"a.bin", 4, "m", "c", "t0"⟩)], [], [], []⟩
        ⟨"u", "0", "1", some ⟨"f.bin", []⟩⟩).fst = .ok () ∧
    chunkAt (upload_chunk ⟨[("u", ⟨"a.bin", 4, "m", "c", "t0"⟩)], [], [], []⟩
        ⟨"u", "0", "1", some ⟨"f.bin", []⟩⟩).snd "u" 0 = some [] := by
  constructor <;> rfl

/-- C9 amended: for a live session, `upload_chunk` rejects with
`IncompleteRequest` (writing nothing) exactly the requests whose chunk part
is missing or falsy — i.e. absent from the form or carrying an empty file
NAME — while a chunk part with a non-empty file name and an empty byte
stream is accepted and an empty chunk file is written for the index. -/
theorem c9_amended_payload_check (st : St) (r : ChunkReq) (info : SessionInfo)
    (hu : pyStrip r.upload_id = r.upload_id) (hne : r.upload_id ≠ "")
    (hs : find? st.upload_sessions r.upload_id = some info) :
    (chunkFalsy r.chunk = true →
      (upload_chunk st r).fst = .error .incompleteRequest ∧ (upload_chunk st r).snd = st) ∧
    (∀ (f : String) (i total : Int), r.chunk = some ⟨f, []⟩ → f ≠ "" →
      pyStrip r.index_raw ≠ "" → pyStrip r.total_raw ≠ "" →
      pyIntOfStr (pyStrip r.index_raw) = some i →
      pyIntOfStr (pyStrip r.total_raw) = some total →
      0 ≤ i → i < total →
      (upload_chunk st r).fst = .ok () ∧
        chunkAt (upload_chunk st r).snd r.upload_id i.toNat = some []) := by
  obtain ⟨ru, ri, rt, rc⟩ := r
  simp only [] at hu hne hs
  constructor
  · intro hcf
    constructor <;> simp [upload_chunk, hu, hne, hs, hcf]
  · intro f i total hchunk hf hine htne hpi hpt h0 hit
    simp only [] at hchunk
    subst hchunk
    rw [upload_chunk_ok st ru ri rt f [] i total info hu hne hs hf hine htne hpi hpt h0 hit]
    refine ⟨rfl, ?_⟩
    rw [chunkAt_writeChunkFile]
    simp

theorem c9_amended_witness :
    ((upload_chunk ⟨[("u", ⟨"a.bin", 4, "m", "c", "t0"⟩)], [], [], []⟩
        ⟨"u", "0", "1", none⟩).fst = .error .incompleteRequest ∧
      (upload_chunk ⟨[("u", ⟨"a.bin", 4, "m", "c", "t0"⟩)], [], [], []⟩
        ⟨"u", "0", "1", none⟩).snd = ⟨[("u", ⟨"a.bin", 4, "m", "c", "t0"⟩)], [], [], []⟩) ∧
    ((upload_chunk ⟨[("u", ⟨"a.bin", 4, "m", "c", "t0"⟩)], [], [], []⟩
        ⟨"u", "2", "3", some ⟨"f.bin", []⟩⟩).fst = .ok () ∧
      chunkAt (upload_chunk ⟨[("u", ⟨"a.bin", 4, "m", "c", "t0"⟩)], [], [], []⟩
        ⟨"u", "2", "3", some ⟨"f.bin", []⟩⟩).snd "u" (2 : Int).toNat = some []) :=
  ⟨(c9_amended_payload_check ⟨[("u", ⟨"a.bin", 4, "m", "c", "t0"⟩)], [], [], []⟩
      ⟨"u", "0", "1", none⟩ ⟨"a.bin", 4, "m", "c", "t0"⟩
      (by decide) (by decide) (by decide)).1 (by decide),
    (c9_amended_payload_check ⟨[("u", ⟨"a.bin", 4, "m", "c", "t0"⟩)], [], [], []⟩
      ⟨"u", "2", "3", some ⟨"f.bin", []⟩⟩ ⟨"a.bin", 4, "m", "c", "t0"⟩
      (by decide) (by decide) (by decide)).2 "f.bin" 2 3 rfl
      (by decide) (by decide) (by decide) (by decide) (by decide) (by decide) (by decide)⟩

/-- C8 counterexample: with a live session whose staging directory does
not exist, completion fails with `stagingDirMissing`, an error whose HTTP
status (404, line 249) and message differ from `incompleteUpload`'s
(400, line 253) — externally distinguishable, contrary to the claim that
it is surfaced as `IncompleteUpload`. -/
theorem c8_counterexample :
    (upload_complete (fun s => s) "t" ⟨[("u", ⟨"a.bin", 4, "m", "c", "t0"⟩)], [], [], []⟩
        "u" 1).fst = .error .stagingDirMissing ∧
    completeStatus .stagingDirMissing = 404 ∧
    completeStatus .incompleteUpload = 400 ∧
    completeMsg .stagingDirMissing ≠ completeMsg .incompleteUpload :=
  ⟨rfl, rfl, rfl, by decide⟩

/-- C8 amended: when `upload_complete` finds the session live and
`totalChunks` positive but the staging subdirectory missing, it fails with
`stagingDirMissing`, surfaced externally as a 404 — the same status as
`SessionNotFound` and distinct from `IncompleteUpload`'s 400 (and the
session is still consumed). -/
theorem c8_amended_dir_missing_is_404
    (sf : String → String) (now : String) (st : St) (u : String) (total : Int)
    (info : SessionInfo)
    (hu : pyStrip u = u) (hne : u ≠ "")
    (hs : find? st.upload_sessions u = some info) (ht : 0 < total)
    (hd : find? st.chunk_dir u = none) :
    (upload_complete sf now st u total).fst = .error .stagingDirMissing ∧
    completeStatus .stagingDirMissing = completeStatus .sessionNotFound ∧
    completeStatus .stagingDirMissing ≠ completeStatus .incompleteUpload ∧
    find? (upload_complete sf now st u total).snd.upload_sessions u = none := by
  rw [upload_complete_dirMissing sf now st u total info hu hne hs ht hd]
  exact ⟨rfl, rfl, by decide, find?_eraseKey_self _ _⟩

theorem c8_amended_witness :
    (upload_complete (fun s => s) "t" ⟨[("u", ⟨"a.bin", 4, "m", "c", "t0"⟩)], [], [], []⟩
        "u" 2).fst = .error .stagingDirMissing ∧
    find? (upload_complete (fun s => s) "t" ⟨[("u", ⟨"a.bin", 4, "m", "c", "t0"⟩)],
        [], [], []⟩ "u" 2).snd.upload_sessions "u" = none := by
  have h := c8_amended_dir_missing_is_404 (fun s => s) "t"
    ⟨[("u", ⟨"a.bin", 4, "m", "c", "t0"⟩)], [], [], []⟩ "u" 2 ⟨"a.bin", 4, "m", "c", "t0"⟩
    (by decide) (by decide) (by decide) (by decide) (by decide)
  exact ⟨h.1, h.2.2.2⟩

theorem padDigits_length (w n : Nat) : (padDigits w n).length = w := by
  induction w generalizing n with
  | zero => rfl
  | succ w ih => simp [padDigits, ih]

theorem padDigits_zero_cons (w : Nat) : ∀ n, n < 10 ^ w → padDigits (w + 1) n = 0 :: padDigits w n := by
  induction w with
  | zero =>
    intro n hn
    interval_cases n
    rfl
  | succ w ih =>
    intro n hn
    have hdiv : n / 10 < 10 ^ w := Nat.div_lt_of_lt_mul (by rwa [← pow_succ'])
    calc padDigits (w + 2) n = padDigits (w + 1) (n / 10) ++ [n % 10] := rfl
      _ = (0 :: padDigits w (n / 10)) ++ [n % 10] := by rw [ih (n / 10) hdiv]
      _ = 0 :: padDigits (w + 1) n := rfl

theorem padDigits_replicate (k w n : Nat) (h : n < 10 ^ w) :
    padDigits (w + k) n = List.replicate k 0 ++ padDigits w n := by
  induction k with
  | zero => rfl
  | succ k ih =>
    have hwk : n < 10 ^ (w + k) :=
      lt_of_lt_of_le h (Nat.pow_le_pow_right (by norm_num) (Nat.le_add_right w k))
    calc padDigits (w + (k + 1)) n = padDigits ((w + k) + 1) n := by ring_nf
      _ = 0 :: padDigits (w + k) n := padDigits_zero_cons (w + k) n hwk
      _ = 0 :: (List.replicate k 0 ++ padDigits w n) := by rw [ih]
      _ = List.replicate (k + 1) 0 ++ padDigits w n := rfl

theorem decimalDigits_spec (n : Nat) :
    ∀ fuel, n < fuel →
      ∃ d, 0 < d ∧ n < 10 ^ d ∧ (d = 1 ∨ 10 ^ (d - 1) ≤ n) ∧
        decimalDigits fuel n = padDigits d n := by
  induction n using Nat.strong_induction_on with
  | _ n ih =>
    intro fuel hfuel
    match fuel, hfuel with
    | fuel + 1, _ =>
      by_cases h10 : n < 10
      · refine ⟨1, one_pos, by simpa using h10, Or.inl rfl, ?_⟩
        show decimalDigits (fuel + 1) n = padDigits 1 n
        simp [decimalDigits, padDigits, h10, Nat.mod_eq_of_lt h10]
      · have hn10 : 10 ≤ n := not_lt.mp h10
        have hdiv : n / 10 < n := Nat.div_lt_self (by omega) (by omega)
        obtain ⟨d, hd0, hdn, hmin, heq⟩ := ih (n / 10) hdiv fuel (by omega)
        refine ⟨d + 1, by omega, ?_, ?_, ?_⟩
        · have h1 : n < 10 * 10 ^ d := by omega
          rwa [← pow_succ'] at h1
        · refine Or.inr ?_
          have hpow : 10 ^ d = 10 * 10 ^ (d - 1) := by
            cases d with
            | zero => omega
            | succ d' => simp [pow_succ']
          rcases hmin with h1 | hge
          · subst h1
            simpa using hn10
          · have h2 : 10 * 10 ^ (d - 1) ≤ 10 * (n / 10) := by omega
            have h3 : n / 10 * 10 ≤ n := Nat.div_mul_le_self n 10
            simp only [Nat.add_sub_cancel]
            omega
        · show decimalDigits (fuel + 1) n = padDigits (d + 1) n
          simp [decimalDigits, h10, heq, padDigits]

theorem chunkFileName_padded (n : Nat) (h : n < 1000000) :
    chunkFileName n =
      "chunk_" ++ String.mk ((padDigits 6 n).map Nat.digitChar) ++ ".part" := by
  obtain ⟨d, hd0, hdn, hmin, heq⟩ := decimalDigits_spec n (n + 1) (Nat.lt_succ_self n)
  have hd6 : d ≤ 6 := by
    by_contra hgt
    push_neg at hgt
    rcases hmin with h1 | hge
    · omega
    · have hp : (10 : Nat) ^ 6 ≤ 10 ^ (d - 1) := Nat.pow_le_pow_right (by norm_num) (by omega)
      have h6 : (10 : Nat) ^ 6 = 1000000 := by norm_num
      omega
  have hrep : List.replicate (6 - d) 0 ++ padDigits d n = padDigits 6 n := by
    have := padDigits_replicate (6 - d) d n hdn
    rw [show d + (6 - d) = 6 by omega] at this
    exact this.symm
  simp only [chunkFileName]
  rw [heq, padDigits_length, hrep]

theorem digitChar_mono : ∀ a < 10, ∀ b < 10, a < b → Nat.digitChar a < Nat.digitChar b := by
  decide

theorem charList_lt_append_left :
    ∀ (p xs ys : List Char), xs < ys → (p ++ xs) < (p ++ ys)
  | [], _, _, h => h
  | _ :: p', xs, ys, h => List.Lex.cons (charList_lt_append_left p' xs ys h)

theorem charList_lt_append_of_lt (xs ys : List Char) (as bs : List Char)
    (h : xs < ys) (hlen : xs.length = ys.length) : (xs ++ as) < (ys ++ bs) := by
  induction h with
  | nil => simp at hlen
  | rel hab => exact List.Lex.rel hab
  | cons _ ih => exact List.Lex.cons (ih (by simpa using hlen))

theorem charList_lt_append_last :
    ∀ (p : List Char) (x y : Char) (as bs : List Char),
      x < y → (p ++ x :: as) < (p ++ y :: bs)
  | [], _, _, _, _, h => List.Lex.rel h
  | _ :: p', x, y, as, bs, h => List.Lex.cons (charList_lt_append_last p' x y as bs h)

theorem padDigits_lt (w : Nat) :
    ∀ a b, a < b → b < 10 ^ w →
      ((padDigits w a).map Nat.digitChar) < ((padDigits w b).map Nat.digitChar) := by
  induction w with
  | zero =>
    intro a b hab hb
    interval_cases b
    omega
  | succ w ih =>
    intro a b hab hb
    have hb' : b / 10 < 10 ^ w := Nat.div_lt_of_lt_mul (by rwa [← pow_succ'])
    simp only [padDigits, List.map_append, List.map_cons, List.map_nil]
    by_cases hq : a / 10 = b / 10
    · have hr : a % 10 < b % 10 := by omega
      rw [hq]
      exact charList_lt_append_last _ _ _ _ _
        (digitChar_mono _ (by omega) _ (by omega) hr)
    · have hq' : a / 10 < b / 10 := by
        have := Nat.div_le_div_right (c := 10) (le_of_lt hab)
        omega
      exact charList_lt_append_of_lt _ _ _ _ (ih _ _ hq' hb')
        (by simp [padDigits_length])

/-- C7 counterexample: `%06d` zero-pads only up to six digits, and the
handler accepts any positive `totalChunks`, so index `1000000` is a valid
chunk index (shown by an accepted chunk upload with `totalChunks =
1000001`) whose file name sorts lexically BEFORE the one of the smaller
index `999999` — lexical and numeric ordering part company at seven
digits. -/
theorem c7_counterexample :
    999999 < 1000000 ∧
    (upload_chunk ⟨[("u", ⟨"a.bin", 4, "m", "c", "t0"⟩)], [], [], []⟩
        ⟨"u", "1000000", "1000001", some ⟨"f", [7]⟩⟩).fst = .ok () ∧
    ¬ chunkFileName 999999 < chunkFileName 1000000 ∧
    chunkFileName 1000000 < chunkFileName 999999 := by
  refine ⟨by norm_num, rfl, ?_, ?_⟩
  · rw [String.lt_iff_toList_lt]
    decide
  · rw [String.lt_iff_toList_lt]
    decide

/-- C7 amended: chunk file names are deterministic in the index
(`chunk_{index:06d}.part`), and for every pair of valid chunk indices
`i < j` that both fit the six-digit zero-padding field (`j < 10^6`,
i.e. uploads of at most a million chunks), the file name of `i` orders
lexically before the file name of `j`; beyond six digits the padding
width grows and the correspondence fails (see the counterexample). -/
theorem c7_amended_lexical_order_within_padding_width (i j : Nat)
    (hij : i < j) (hj : j < 1000000) :
    chunkFileName i < chunkFileName j := by
  have hj6 : j < 10 ^ 6 := by
    have h6 : (10 : Nat) ^ 6 = 1000000 := by norm_num
    omega
  rw [chunkFileName_padded i (lt_trans hij hj), chunkFileName_padded j hj,
    String.lt_iff_toList_lt]
  have hmk : ∀ l : List Char, (String.mk l).data = l := fun _ => rfl
  simp only [String.toList, String.data_append, hmk, List.append_assoc]
  exact charList_lt_append_left _ _ _
    (charList_lt_append_of_lt _ _ _ _ (padDigits_lt 6 i j hij hj6)
      (by simp [padDigits_length]))

theorem c7_amended_witness :
    3 < 12 ∧ 12 < 1000000 ∧ chunkFileName 3 < chunkFileName 12 :=
  ⟨by norm_num, by norm_num,
    c7_amended_lexical_order_within_padding_width 3 12 (by norm_num) (by norm_num)⟩

/-- Decimal value of a digit list, most significant digit first. -/
def valOfDigits : List Nat → Nat
  | [] => 0
  | d :: rest => d * 10 ^ rest.length + valOfDigits rest

theorem valOfDigits_append_single (l : List Nat) (d : Nat) :
    valOfDigits (l ++ [d]) = 10 * valOfDigits l + d := by
  induction l with
  | nil => simp [valOfDigits]
  | cons x rest ih =>
    simp [valOfDigits, ih, List.length_append, pow_succ]
    ring

theorem valOfDigits_padDigits (w : Nat) : ∀ n, valOfDigits (padDigits w n) = n % 10 ^ w := by
  induction w with
  | zero => intro n; simp [padDigits, valOfDigits, Nat.mod_one]
  | succ w ih =>
    intro n
    show valOfDigits (padDigits w (n / 10) ++ [n % 10]) = n % 10 ^ (w + 1)
    rw [valOfDigits_append_single, ih, pow_succ', Nat.mod_mul]
    ring

theorem valOfDigits_replicate_zero (k : Nat) (l : List Nat) :
    valOfDigits (List.replicate k 0 ++ l) = valOfDigits l := by
  induction k with
  | zero => rfl
  | succ k ih => simpa [valOfDigits] using ih

theorem padDigits_lt_ten (w : Nat) : ∀ n, ∀ d ∈ padDigits w n, d < 10 := by
  induction w with
  | zero => simp [padDigits]
  | succ w ih =>
    intro n d hd
    rcases List.mem_append.mp hd with hd | hd
    · exact ih (n / 10) d hd
    · have : d = n % 10 := by simpa using hd
      omega

theorem digitChar_inj_on : ∀ a < 10, ∀ b < 10, Nat.digitChar a = Nat.digitChar b → a = b := by
  decide

theorem map_digitChar_inj :
    ∀ (l₁ l₂ : List Nat), (∀ x ∈ l₁, x < 10) → (∀ x ∈ l₂, x < 10) →
      l₁.map Nat.digitChar = l₂.map Nat.digitChar → l₁ = l₂
  | [], [], _, _, _ => rfl
  | [], _ :: _, _, _, h => by simp at h
  | _ :: _, [], _, _, h => by simp at h
  | a :: l₁, b :: l₂, h₁, h₂, h => by
    simp only [List.map_cons, List.cons.injEq] at h
    have hab : a = b :=
      digitChar_inj_on a (h₁ a (List.mem_cons_self a l₁)) b (h₂ b (List.mem_cons_self b l₂)) h.1
    have hl : l₁ = l₂ :=
      map_digitChar_inj l₁ l₂ (fun x hx => h₁ x (List.mem_cons_of_mem a hx))
        (fun x hx => h₂ x (List.mem_cons_of_mem b hx)) h.2
    rw [hab, hl]

/-- The padded digit list used by `chunkFileName n` reads back as `n`. -/
theorem chunkName_digits_val (n : Nat) :
    valOfDigits (List.replicate (6 - (decimalDigits (n + 1) n).length) 0 ++
      decimalDigits (n + 1) n) = n := by
  obtain ⟨d, _, hdn, _, heq⟩ := decimalDigits_spec n (n + 1) (Nat.lt_succ_self n)
  rw [heq, valOfDigits_replicate_zero, valOfDigits_padDigits, Nat.mod_eq_of_lt hdn]

theorem chunkName_digits_lt_ten (n : Nat) :
    ∀ x ∈ List.replicate (6 - (decimalDigits (n + 1) n).length) 0 ++
      decimalDigits (n + 1) n, x < 10 := by
  obtain ⟨d, _, _, _, heq⟩ := decimalDigits_spec n (n + 1) (Nat.lt_succ_self n)
  rw [heq]
  intro x hx
  rcases List.mem_append.mp hx with hx | hx
  · simp [List.eq_of_mem_replicate hx]
  · exact padDigits_lt_ten d n x hx

/-- Distinct indices always get distinct chunk file names, which justifies
modelling the staging directory as a map keyed by the chunk index. -/
theorem chunkFileName_injective : Function.Injective chunkFileName := by
  intro a b hab
  simp only [chunkFileName] at hab
  have hdata := congrArg String.data hab
  simp only [String.data_append] at hdata
  have h1 := List.append_cancel_right hdata
  have h2 := List.append_cancel_left h1
  have h3 := map_digitChar_inj _ _ (chunkName_digits_lt_ten a) (chunkName_digits_lt_ten b) h2
  have h4 := congrArg valOfDigits h3
  rwa [chunkName_digits_val, chunkName_digits_val] at h4

end FileHelper
